import Mathlib

/-!
Verification of the gpx-poi-tool core (`src/poi_core.py`, `src/poi_manager.py`).

Shallow embedding of the POI data model, the duplicate predicate, the merge
policy, the spatial grid index, the merge/deduplication engines and the pure
part of the elevation-enrichment pipeline.  Coordinates, distances and
thresholds are modelled as exact real numbers; Python's `math` trigonometry is
modelled by the corresponding real functions, and `math.atan2 y x` by the
argument of the complex number `x + y*I`.  Optional values are `Option`,
Python truthiness of optional strings is made explicit.
-/

open Real

noncomputable section

/-- A point of interest (dataclass `POI` in `poi_core.py`). -/
structure POI where
  lat : ℝ
  lon : ℝ
  name : String
  desc : String := ""
  ele : Option ℝ := none
  link : Option String := none
  extensions : Option String := none

/-- `math.radians`: degrees to radians. -/
def radiansOfDeg (d : ℝ) : ℝ := d * π / 180

/-- `math.atan2 y x`, i.e. the argument of the complex number `x + y*I`. -/
def atan2 (y x : ℝ) : ℝ := Complex.arg ⟨x, y⟩

/-- The intermediate value `a` computed in `POI.distance_to` (`poi_core.py`):
`sin(dlat/2)^2 + cos(lat1)*cos(lat2)*sin(dlon/2)^2` with all angles in radians. -/
def havA (lat1 lon1 lat2 lon2 : ℝ) : ℝ :=
  Real.sin ((radiansOfDeg lat2 - radiansOfDeg lat1) / 2) ^ 2 +
    Real.cos (radiansOfDeg lat1) * Real.cos (radiansOfDeg lat2) *
      Real.sin ((radiansOfDeg lon2 - radiansOfDeg lon1) / 2) ^ 2

/-- Haversine distance in meters over Earth radius 6371000 m
(`POI.distance_to` in `poi_core.py`): `R * (2 * atan2(sqrt a, sqrt (1-a)))`. -/
def haversine (lat1 lon1 lat2 lon2 : ℝ) : ℝ :=
  6371000 *
    (2 * atan2 (Real.sqrt (havA lat1 lon1 lat2 lon2))
      (Real.sqrt (1 - havA lat1 lon1 lat2 lon2)))

/-- `POI.distance_to` in `poi_core.py`. -/
def POI.distance_to (p q : POI) : ℝ := haversine p.lat p.lon q.lat q.lon

/-- `POI.is_duplicate` in `poi_core.py`: a pure distance comparison against the
threshold (default 100.0 m); the names of the two POIs are not consulted. -/
def POI.is_duplicate (p q : POI) (distance_threshold : ℝ := 100) : Prop :=
  p.distance_to q ≤ distance_threshold

instance (p q : POI) (t : ℝ) : Decidable (p.is_duplicate q t) :=
  Real.decidableLE _ _

/-- Python truthiness of an optional string: `None` and `""` are falsy. -/
def pyTruthyStr (o : Option String) : Bool :=
  match o with
  | none => false
  | some s => !s.isEmpty

/-- Python `needle in hay` for strings: substring containment. -/
def pyContains (needle hay : String) : Bool :=
  decide (needle.toList <:+: hay.toList)

/-- ASCII lower-casing of one character (`str.lower` on the inputs in scope). -/
def pyLowerChar (c : Char) : Char :=
  if 65 ≤ c.toNat ∧ c.toNat ≤ 90 then Char.ofNat (c.toNat + 32) else c

/-- Python `str.lower`, modelled character-wise. -/
def pyLower (s : String) : String := String.mk (s.toList.map pyLowerChar)

/-- `POI.merge_with` in `poi_core.py`. -/
def POI.merge_with (a b : POI) : POI :=
  { lat :=
      if a.ele.isSome && !b.ele.isSome then a.lat
      else if b.ele.isSome && !a.ele.isSome then b.lat
      else (a.lat + b.lat) / 2
    lon :=
      if a.ele.isSome && !b.ele.isSome then a.lon
      else if b.ele.isSome && !a.ele.isSome then b.lon
      else (a.lon + b.lon) / 2
    name :=
      if b.name.length > a.name.length || pyContains "waypoint" (pyLower a.name)
      then b.name else a.name
    desc := if a.desc.length > b.desc.length then a.desc else b.desc
    ele := if a.ele.isSome then a.ele else b.ele
    link := if pyTruthyStr a.link then a.link else b.link
    extensions :=
      if !pyTruthyStr a.extensions && pyTruthyStr b.extensions then b.extensions
      else if pyTruthyStr a.extensions && pyTruthyStr b.extensions &&
        decide ((b.extensions.getD "").length > (a.extensions.getD "").length)
      then b.extensions
      else a.extensions }

/-- The longitude (in degrees) of the point on the equator whose Haversine
distance from longitude 0 is exactly `d` meters.  Used to build concrete
inputs with exactly known distances. -/
def lonOfMeters (d : ℝ) : ℝ := d * 180 / (6371000 * π)

/-- Python `int(x)` on a float: truncation toward zero. -/
def pyInt (x : ℝ) : ℤ := if 0 ≤ x then ⌊x⌋ else ⌈x⌉

/-- `SpatialGrid._get_grid_coords` as a function of the cell size in meters:
both coordinates are divided by `cell_size_degrees = cell_size_meters/111320`
and truncated with `int`. -/
def gridCoordsOf (cellMeters lat lon : ℝ) : ℤ × ℤ :=
  (pyInt (lat / (cellMeters / 111320)), pyInt (lon / (cellMeters / 111320)))

/-- The spatial index (`SpatialGrid` in `poi_core.py`): cell size, the
bucket map (`defaultdict(list)`, modelled as a total function defaulting to
`[]`) and the positional POI array (holes padded with `None`). -/
structure SpatialGrid where
  cell_size_meters : ℝ
  grid : ℤ × ℤ → List ℕ
  pois : List (Option POI)

/-- `SpatialGrid.__init__`. -/
def SpatialGrid.empty (cellMeters : ℝ) : SpatialGrid :=
  ⟨cellMeters, fun _ => [], []⟩

/-- `SpatialGrid._get_grid_coords`. -/
def SpatialGrid.getGridCoords (g : SpatialGrid) (lat lon : ℝ) : ℤ × ℤ :=
  gridCoordsOf g.cell_size_meters lat lon

/-- The nine `(dlat, dlon)` offsets enumerated by `_get_neighbor_cells`,
outer loop `dlat`, inner loop `dlon`. -/
def neighborOffsets : List (ℤ × ℤ) :=
  [(-1, -1), (-1, 0), (-1, 1), (0, -1), (0, 0), (0, 1), (1, -1), (1, 0), (1, 1)]

/-- `SpatialGrid._get_neighbor_cells`: the 3×3 neighborhood of a cell. -/
def getNeighborCells (c : ℤ × ℤ) : List (ℤ × ℤ) :=
  neighborOffsets.map (fun o => (c.1 + o.1, c.2 + o.2))

/-- `SpatialGrid.add_poi`: append `index` to the bucket of the POI's cell and
store the POI at position `index` of `pois`, padding with `None` when `index`
is beyond the current length. -/
def SpatialGrid.addPoi (g : SpatialGrid) (p : POI) (index : ℕ) : SpatialGrid :=
  let c := g.getGridCoords p.lat p.lon
  { cell_size_meters := g.cell_size_meters
    grid := fun c' => if c' = c then g.grid c' ++ [index] else g.grid c'
    pois := (g.pois ++ List.replicate (index + 1 - g.pois.length) none).set index (some p) }

/-- The body of the candidate loop of `find_nearby_pois` for one stored index:
the index is kept when it denotes a stored, non-`None` POI within
`maxDist` of the probe (out-of-range indices read as `None` via `getD`). -/
def SpatialGrid.checkIndex (g : SpatialGrid) (p : POI) (maxDist : ℝ) (i : ℕ) :
    Option (ℕ × ℝ) :=
  match g.pois.getD i none with
  | none => none
  | some q =>
    let d := p.distance_to q
    if d ≤ maxDist then some (i, d) else none

/-- `SpatialGrid.find_nearby_pois`: scan the buckets of the 3×3 neighborhood
of the probe's cell, keep candidates within `maxDist` (default 100) by exact
Haversine distance, and sort the `(index, distance)` pairs by distance. -/
def SpatialGrid.findNearbyPois (g : SpatialGrid) (p : POI) (maxDist : ℝ := 100) :
    List (ℕ × ℝ) :=
  let cells := getNeighborCells (g.getGridCoords p.lat p.lon)
  let nearby := cells.flatMap (fun c => (g.grid c).filterMap (g.checkIndex p maxDist))
  nearby.mergeSort (fun x y => decide (x.2 ≤ y.2))

/-- `GPXManager` (`poi_manager.py`): the only state relevant to the claims is
the configured duplicate threshold (`self.duplicate_threshold = 100.0`). -/
structure GPXManager where
  duplicate_threshold : ℝ

/-- A manager as built by `GPXManager.__init__`. -/
def GPXManager.init : GPXManager := ⟨100⟩

/-- Inner loop shared by `_merge_pois_original` and
`_deduplicate_pois_original`: scan the accepted records for the first
`is_duplicate` match (at the predicate's default threshold, since those call
sites pass no threshold), replace it by `target.merge_with(incoming)`;
if none matches, append the incoming record. -/
def insertPoiOriginal (s : POI) : List POI → List POI
  | [] => [s]
  | t :: rest =>
    if s.is_duplicate t then t.merge_with s :: rest
    else t :: insertPoiOriginal s rest

/-- `GPXManager._merge_pois_original`: fold the source records into a copy of
the target list.  Note the configured `duplicate_threshold` is not used:
`is_duplicate` is called with its default. -/
def GPXManager.mergePoisOriginal (_mgr : GPXManager) (target source : List POI) :
    List POI :=
  source.foldl (fun res s => insertPoiOriginal s res) target

/-- Inner loop of the grid-accelerated paths: walk the `(index, distance)`
candidates in the order returned by `find_nearby_pois`; for the first index
that is in range and `is_duplicate` (default threshold), replace that
accepted record by `accepted.merge_with(incoming)`; `none` means no merge
happened. -/
def tryMergeNearby (s : POI) (res : List POI) : List (ℕ × ℝ) → Option (List POI)
  | [] => none
  | (i, _) :: rest =>
    if h : i < res.length then
      let t := res.get ⟨i, h⟩
      if s.is_duplicate t then some (res.set i (t.merge_with s))
      else tryMergeNearby s res rest
    else tryMergeNearby s res rest

/-- One iteration of the grid-accelerated loops (`_merge_pois_optimized` and
`_deduplicate_pois_optimized` share this shape): query the grid with the
configured threshold, merge into the first duplicate candidate, otherwise
append the record and index it at its new position. -/
def gridStep (thr : ℝ) (st : SpatialGrid × List POI) (s : POI) :
    SpatialGrid × List POI :=
  let nearby := st.1.findNearbyPois s thr
  match tryMergeNearby s st.2 nearby with
  | some res' => (st.1, res')
  | none => (st.1.addPoi s st.2.length, st.2 ++ [s])

/-- `GPXManager._merge_pois_optimized`: index the target records in a fresh
grid with cell size `3 * duplicate_threshold`, then fold the source records
through `gridStep`. -/
def GPXManager.mergePoisOptimized (mgr : GPXManager) (target source : List POI) :
    List POI :=
  let g0 := target.enum.foldl (fun g ip => g.addPoi ip.2 ip.1)
    (SpatialGrid.empty (mgr.duplicate_threshold * 3))
  (source.foldl (gridStep mgr.duplicate_threshold) (g0, target)).2

/-- `GPXManager.merge_pois`: empty-list short-cuts, then size-based algorithm
selection (`n*m > 10000` picks the grid path). -/
def GPXManager.mergePois (mgr : GPXManager) (target source : List POI) : List POI :=
  if source.isEmpty then target
  else if target.isEmpty then source
  else if target.length * source.length > 10000 then mgr.mergePoisOptimized target source
  else mgr.mergePoisOriginal target source

/-- `GPXManager._deduplicate_pois_original`: start from the first record and
fold the rest through the same first-match-merge loop. -/
def GPXManager.dedupOriginal (_mgr : GPXManager) : List POI → List POI
  | [] => []
  | p :: rest => rest.foldl (fun res q => insertPoiOriginal q res) [p]

/-- `GPXManager._deduplicate_pois_optimized`: fold all records through
`gridStep` starting from an empty accepted list and a fresh grid with cell
size `3 * duplicate_threshold`.  (The `processed_indices` bookkeeping of the
Python code is dead: the loop index is distinct at every iteration, so the
skip branch never fires.) -/
def GPXManager.dedupOptimized (mgr : GPXManager) (pois : List POI) : List POI :=
  (pois.foldl (gridStep mgr.duplicate_threshold)
    (SpatialGrid.empty (mgr.duplicate_threshold * 3), [])).2

/-- `GPXManager.deduplicate_pois`: empty and singleton short-cuts, then
size-based selection (`n > 500` picks the grid path). -/
def GPXManager.deduplicatePois (mgr : GPXManager) (pois : List POI) : List POI :=
  if pois.isEmpty then []
  else if pois.length = 1 then pois
  else if pois.length > 500 then mgr.dedupOptimized pois
  else mgr.dedupOriginal pois

/-- `GPXManager._remove_zero_elevations`: a POI whose elevation is exactly 0
is rebuilt with unknown elevation (the rebuilt POI also loses its
`extensions`, which the Python constructor call omits); all other POIs pass
through unchanged. -/
def removeZeroElevations (pois : List POI) : List POI :=
  pois.map (fun p =>
    match p.ele with
    | some e => if e = 0 then ⟨p.lat, p.lon, p.name, p.desc, none, p.link, none⟩ else p
    | none => p)

/-- The reconciliation rule of the success path of
`_lookup_elevation_batch`: position `i` of the batch gets elevation `e` iff
the service result at `i` is present and `e > 0`; otherwise the POI is kept
unchanged (never writing a zero).  The service response is modelled as one
`Option ℝ` per position (`None` for an absent or null elevation). -/
def lookupBatchPure (batch : List POI) (results : List (Option ℝ)) : List POI :=
  batch.enum.map (fun ip =>
    match results.getD ip.1 none with
    | some e =>
      if 0 < e then
        ⟨ip.2.lat, ip.2.lon, ip.2.name, ip.2.desc, some e, ip.2.link, ip.2.extensions⟩
      else ip.2
    | none => ip.2)

/-- Fixed-size chunking (the `range(0, n, batch_size)` slicing loop of
`lookup_elevations`); the first argument is fuel bounding the recursion. -/
def chunksAux (b : ℕ) : ℕ → List POI → List (List POI)
  | 0, _ => []
  | _, [] => []
  | fuel + 1, xs => xs.take b :: chunksAux b fuel (xs.drop b)

/-- Split a list into chunks of `b` elements (last chunk may be shorter). -/
def chunks (b : ℕ) (xs : List POI) : List (List POI) :=
  chunksAux b xs.length xs

/-- The reconciliation loop of `lookup_elevations`: replace the first record
whose `(lat, lon, name)` triple equals that of the updated POI; when no
record matches, the list is unchanged. -/
def replaceFirstMatch (up : POI) : List POI → List POI
  | [] => []
  | q :: rest =>
    if up.lat = q.lat ∧ up.lon = q.lon ∧ up.name = q.name then up :: rest
    else q :: replaceFirstMatch up rest

/-- `GPXManager.lookup_elevations`, success path, with the elevation service
modelled as a function from batch number to the per-position responses of
that batch: pre-clean zero elevations, select the POIs with unknown
elevation, process them in batches of 50, and write each updated POI back
over the first `(lat, lon, name)` match of the working list. -/
def lookupElevations (pois : List POI) (svc : ℕ → List (Option ℝ)) : List POI :=
  let cleaned := removeZeroElevations pois
  let needing := cleaned.filter (fun p => p.ele.isNone)
  if needing.isEmpty then cleaned
  else
    (chunks 50 needing).enum.foldl
      (fun updated ib =>
        (lookupBatchPure ib.2 (svc ib.1)).foldl
          (fun acc up => replaceFirstMatch up acc) updated)
      cleaned

/-- The coordinate rule of the merge policy as the spec states it
(spec §4.3 "Coordinates"): if exactly one input has a non-null elevation,
adopt that input's `(lat, lon)`; if both or neither have one, average `lat`
and `lon` independently.  Stated separately from `POI.merge_with` so the code
can be proved to refine the spec's words. -/
def coordsSpec (a b : POI) : ℝ × ℝ :=
  if a.ele.isSome ∧ ¬b.ele.isSome then (a.lat, a.lon)
  else if b.ele.isSome ∧ ¬a.ele.isSome then (b.lat, b.lon)
  else ((a.lat + b.lat) / 2, (a.lon + b.lon) / 2)

/-- Two POIs sharing the name "Hut", 10 km apart on the equator. -/
def hutA : POI := ⟨0, 0, "Hut", "", none, none, none⟩

/-- See `hutA`. -/
def hutB : POI := ⟨0, lonOfMeters 10000, "Hut", "", none, none, none⟩

/-- A POI whose name contains "waypoint" (case-insensitively). -/
def wpA : POI := ⟨0, 0, "Waypoint 12", "", none, none, none⟩

/-- A POI with a one-character name. -/
def wpB : POI := ⟨0, 0, "X", "", none, none, none⟩

/-- A POI used for the merge-with-empty-list instance. -/
def p10 : POI := ⟨0, 0, "W", "", none, none, none⟩

/-- Probe POI at the origin for the grid-miss instance. -/
def probeA : POI := ⟨0, 0, "probe", "", none, none, none⟩

/-- Stored POI 0.25 degrees of longitude east of the probe. -/
def storedB : POI := ⟨0, 0.25, "stored", "", none, none, none⟩

/-- A one-entry grid with 0.1-degree cells (11132 m / 111320 m-per-degree)
holding `storedB` at index 0. -/
def gridMiss : SpatialGrid := (SpatialGrid.empty 11132).addPoi storedB 0

/-- A manager whose configured duplicate threshold is 50 m. -/
def mgr50 : GPXManager := ⟨50⟩

/-- Target POI for the threshold instance. -/
def pA5 : POI := ⟨0, 0, "A", "", none, none, none⟩

/-- Source POI 60 m east of `pA5`, with a different name. -/
def pB5 : POI := ⟨0, lonOfMeters 60, "B", "", none, none, none⟩

/-- Duplicate-free pair: 200 m apart on the equator. -/
def q6A : POI := ⟨0, 0, "P", "", none, none, none⟩

/-- See `q6A`. -/
def q6B : POI := ⟨0, lonOfMeters 200, "Q", "", none, none, none⟩

/-- A POI with the invalid zero elevation. -/
def p7zero : POI := ⟨0, 0, "Z", "", some 0, none, none⟩

/-- A POI for the grid-insertion instance. -/
def p8 : POI := ⟨0, 0, "S", "", none, none, none⟩

/-- The grid obtained by inserting `p8` twice at index 0. -/
def grid8 : SpatialGrid := ((SpatialGrid.empty 300).addPoi p8 0).addPoi p8 0

/-- A POI with known elevation 500 whose `(lat, lon, name)` key collides
with `b9`. -/
def a9 : POI := ⟨0, 0, "X", "", some 500, none, none⟩

/-- A POI with unknown elevation sharing its key with `a9`. -/
def b9 : POI := ⟨0, 0, "X", "", none, none, none⟩

/-- Elevation service returning 300 for the single looked-up position. -/
def svc9 : ℕ → List (Option ℝ) := fun _ => [some 300]

/-- A POI with known elevation 5 and a key distinct from `u9`. -/
def k9 : POI := ⟨0, 0, "A", "", some 5, none, none⟩

/-- A POI with unknown elevation and a key distinct from `k9`. -/
def u9 : POI := ⟨0, 1, "B", "", none, none, none⟩

/-- Elevation service returning 7 for the single looked-up position. -/
def svc9w : ℕ → List (Option ℝ) := fun _ => [some 7]

end

section Lemmas

lemma pi_big : (3 : ℝ) < π := Real.pi_gt_three

lemma havA_zero_lat (l₁ l₂ : ℝ) :
    havA 0 l₁ 0 l₂ = Real.sin ((radiansOfDeg l₂ - radiansOfDeg l₁) / 2) ^ 2 := by
  simp [havA, radiansOfDeg]

/-- On the equator the Haversine formula evaluates exactly to arc length:
`R * dlon_rad`, provided the longitude difference is between 0 and 180 degrees. -/
lemma haversine_equator (l₁ l₂ : ℝ) (h0 : l₁ ≤ l₂) (h1 : l₂ - l₁ ≤ 180) :
    haversine 0 l₁ 0 l₂ = 6371000 * ((l₂ - l₁) * π / 180) := by
  have hπ : (0 : ℝ) < π := Real.pi_pos
  have hxval : (radiansOfDeg l₂ - radiansOfDeg l₁) / 2 = (l₂ - l₁) * π / 180 / 2 := by
    simp only [radiansOfDeg]; ring
  set x : ℝ := (l₂ - l₁) * π / 180 / 2 with hxdef
  have hx0 : 0 ≤ x := by
    have : 0 ≤ l₂ - l₁ := by linarith
    positivity
  have hx2 : x ≤ π / 2 := by
    rw [hxdef]
    rw [div_le_div_iff (by norm_num : (0:ℝ) < 2) (by norm_num : (0:ℝ) < 2)]
    rw [div_mul_eq_mul_div, div_le_iff (by norm_num : (0:ℝ) < 180)]
    nlinarith
  have hA : havA 0 l₁ 0 l₂ = Real.sin x ^ 2 := by
    rw [havA_zero_lat, hxval]
  have hsin : 0 ≤ Real.sin x :=
    Real.sin_nonneg_of_nonneg_of_le_pi hx0 (by linarith)
  have hcos : 0 ≤ Real.cos x :=
    Real.cos_nonneg_of_mem_Icc ⟨by linarith, hx2⟩
  have harg : atan2 (Real.sin x) (Real.cos x) = x := by
    rw [atan2, Complex.mk_eq_add_mul_I, Complex.ofReal_cos, Complex.ofReal_sin]
    exact Complex.arg_cos_add_sin_mul_I ⟨by linarith, by linarith⟩
  rw [haversine, hA, Real.sqrt_sq hsin,
    show (1 : ℝ) - Real.sin x ^ 2 = Real.cos x ^ 2 from (Real.cos_sq' x).symm,
    Real.sqrt_sq hcos, harg, hxdef]
  ring

/-- Haversine distance between a point and itself is zero. -/
lemma haversine_self (la lo : ℝ) : haversine la lo la lo = 0 := by
  have hA : havA la lo la lo = 0 := by simp [havA]
  rw [haversine, hA]
  have h1 : atan2 (Real.sqrt 0) (Real.sqrt (1 - 0)) = 0 := by
    rw [atan2]
    norm_num
    rw [show (⟨1, 0⟩ : ℂ) = ((1 : ℝ) : ℂ) from by
      rw [Complex.mk_eq_add_mul_I]; norm_num]
    norm_num [Complex.arg_one]
  rw [h1]
  ring

/-- The Haversine formula is symmetric in its two points. -/
lemma haversine_comm (a b c d : ℝ) : haversine a b c d = haversine c d a b := by
  have hsin : ∀ u v : ℝ, Real.sin ((u - v) / 2) ^ 2 = Real.sin ((v - u) / 2) ^ 2 := by
    intro u v
    rw [show (u - v) / 2 = -((v - u) / 2) by ring, Real.sin_neg]
    ring
  have hA : havA a b c d = havA c d a b := by
    unfold havA
    rw [hsin (radiansOfDeg c) (radiansOfDeg a), hsin (radiansOfDeg d) (radiansOfDeg b)]
    ring
  unfold haversine
  rw [hA]

/-- `distance_to` is symmetric. -/
lemma POI.distance_comm (p q : POI) : p.distance_to q = q.distance_to p :=
  haversine_comm p.lat p.lon q.lat q.lon

/-- The equator point built by `lonOfMeters` is at the advertised exact
distance from the origin. -/
lemma haversine_lonOfMeters (d : ℝ) (h0 : 0 ≤ d) (h1 : d ≤ 6371000 * π) :
    haversine 0 0 0 (lonOfMeters d) = d := by
  have hπ : (0 : ℝ) < π := Real.pi_pos
  have hl0 : (0 : ℝ) ≤ lonOfMeters d := by
    unfold lonOfMeters; positivity
  have hl1 : lonOfMeters d - 0 ≤ 180 := by
    unfold lonOfMeters
    rw [sub_zero, div_le_iff (by positivity : (0:ℝ) < 6371000 * π)]
    nlinarith
  rw [haversine_equator 0 (lonOfMeters d) (by linarith) hl1]
  unfold lonOfMeters
  field_simp
  ring

end Lemmas

section ClaimC1

/-- C1: the claim states `is_duplicate(a, b, t)` is true iff the names match
(case-insensitively, trimmed) OR the distance is at most `t`.  In
`poi_core.py` the predicate is distance-only; amended: `is_duplicate(a, b, t)`
holds iff the Haversine distance is at most `t`, and the names of the two
POIs are never consulted (replacing both names by anything leaves the
predicate unchanged). -/
theorem c1_is_duplicate_iff_within_threshold (a b : POI) (t : ℝ) (n₁ n₂ : String) :
    (a.is_duplicate b t ↔ a.distance_to b ≤ t) ∧
    (a.is_duplicate b t ↔
      ({ a with name := n₁ } : POI).is_duplicate ({ b with name := n₂ }) t) :=
  ⟨Iff.rfl, Iff.rfl⟩

/-- C1 counterexample: two POIs both named "Hut", exactly 10 km apart, are
not judged duplicates at the default threshold, and the merge engine keeps
them as two records instead of merging them into one. -/
theorem c1_counterexample_equal_names_far_apart :
    hutA.name = hutB.name ∧ hutA.distance_to hutB = 10000 ∧
    ¬ hutA.is_duplicate hutB ∧
    GPXManager.init.mergePoisOriginal [hutA] [hutB] = [hutA, hutB] := by
  have hd : hutA.distance_to hutB = 10000 := by
    show haversine 0 0 0 (lonOfMeters 10000) = 10000
    exact haversine_lonOfMeters 10000 (by norm_num) (by nlinarith [pi_big])
  have hd' : hutB.distance_to hutA = 10000 := by
    rw [POI.distance_comm]; exact hd
  refine ⟨rfl, hd, ?_, ?_⟩
  · simp only [POI.is_duplicate, hd]
    norm_num
  · show insertPoiOriginal hutB [hutA] = [hutA, hutB]
    rw [insertPoiOriginal, if_neg, insertPoiOriginal]
    simp only [POI.is_duplicate, hd']
    norm_num

end ClaimC1

section ClaimC3

/-- C3: the claim states the merged name is the longer of the two names, with
ties keeping `a`'s name.  `POI.merge_with` additionally hands the name to `b`
whenever `a`'s name contains "waypoint" case-insensitively; amended: whenever
`a`'s lower-cased name does not contain "waypoint", the merged name is the
longer of the two and ties keep `a`. -/
theorem c3_merge_name_longer_unless_waypoint (a b : POI)
    (h : pyContains "waypoint" (pyLower a.name) = false) :
    (a.merge_with b).name = if b.name.length > a.name.length then b.name else a.name := by
  show (if (decide (b.name.length > a.name.length) || pyContains "waypoint" (pyLower a.name)) = true
      then b.name else a.name) = _
  rw [h, Bool.or_false]
  by_cases hb : b.name.length > a.name.length <;> simp [hb]

/-- C3 witness at a concrete tie-free input: "Lake" (4 chars) beats
"Hut" (3 chars). -/
theorem c3_witness_longer_name_kept :
    ((⟨0, 0, "Lake", "", none, none, none⟩ : POI).merge_with
      ⟨0, 0, "Hut", "", none, none, none⟩).name = "Lake" := by
  have h := c3_merge_name_longer_unless_waypoint
    (⟨0, 0, "Lake", "", none, none, none⟩ : POI)
    (⟨0, 0, "Hut", "", none, none, none⟩ : POI) (by decide)
  rw [h]
  decide

/-- C3 counterexample: `a` named "Waypoint 12" (11 chars) merged with `b`
named "X" (1 char) yields name "X": the longer name loses because `a`'s name
contains "waypoint". -/
theorem c3_counterexample_waypoint_rule :
    wpA.name.length > wpB.name.length ∧ (wpA.merge_with wpB).name = wpB.name ∧
    wpB.name ≠ wpA.name := by
  refine ⟨by decide, ?_, by decide⟩
  decide

end ClaimC3

section ClaimC4

/-- C4: the merged coordinates follow the spec's rule exactly: if precisely
one input has a non-null elevation its `(lat, lon)` pair is adopted, and
otherwise both coordinates are averaged. -/
theorem c4_merge_coordinates_follow_spec (a b : POI) :
    ((a.merge_with b).lat, (a.merge_with b).lon) = coordsSpec a b := by
  cases ha : a.ele <;> cases hb : b.ele <;>
    simp [POI.merge_with, coordsSpec, ha, hb]

end ClaimC4

section ClaimC10

/-- C10: the public merge interface returns the other list unchanged whenever
one of the two inputs is empty. -/
theorem c10_empty_list_identity (mgr : GPXManager) (target source : List POI) :
    (source = [] → mgr.mergePois target source = target) ∧
    (target = [] → mgr.mergePois target source = source) := by
  constructor
  · rintro rfl
    simp [GPXManager.mergePois]
  · rintro rfl
    by_cases hs : source = []
    · subst hs; simp [GPXManager.mergePois]
    · simp [GPXManager.mergePois, List.isEmpty_iff, hs]

/-- C10 witness at concrete singleton lists. -/
theorem c10_witness :
    GPXManager.init.mergePois [p10] [] = [p10] ∧
    GPXManager.init.mergePois [] [p10] = [p10] :=
  ⟨(c10_empty_list_identity GPXManager.init [p10] []).1 rfl,
    (c10_empty_list_identity GPXManager.init [] [p10]).2 rfl⟩

end ClaimC10

section MergeLemmas

/-- When the incoming record duplicates nothing in the accepted list, the
first-match loop appends it. -/
lemma insertPoiOriginal_of_not_dup (s : POI) :
    ∀ res : List POI, (∀ t ∈ res, ¬ s.is_duplicate t) →
      insertPoiOriginal s res = res ++ [s]
  | [], _ => rfl
  | t :: rest, h => by
    rw [insertPoiOriginal, if_neg (h t (List.mem_cons_self t rest)),
      insertPoiOriginal_of_not_dup s rest (fun x hx => h x (List.mem_cons_of_mem t hx))]
    rfl

/-- Folding a duplicate-free batch through the naive first-match loop appends
all of it. -/
lemma foldl_insert_no_dup :
    ∀ (l acc : List POI), (∀ q ∈ l, ∀ t ∈ acc, ¬ q.is_duplicate t) →
      l.Pairwise (fun x y => ¬ y.is_duplicate x) →
      l.foldl (fun res q => insertPoiOriginal q res) acc = acc ++ l
  | [], acc, _, _ => by simp
  | q :: rest, acc, h, hpw => by
    rw [List.foldl_cons,
      insertPoiOriginal_of_not_dup q acc (h q (List.mem_cons_self q rest)),
      foldl_insert_no_dup rest (acc ++ [q]) ?_ (List.Pairwise.of_cons hpw)]
    · simp
    · intro q' hq' t ht
      rcases List.mem_append.1 ht with h1 | h1
      · exact h q' (List.mem_cons_of_mem q hq') t h1
      · rcases List.mem_singleton.1 h1 with rfl
        exact (List.pairwise_cons.1 hpw).1 q' hq'

/-- The nearby-candidate loop merges nothing when the incoming record
duplicates no accepted record. -/
lemma tryMergeNearby_eq_none (s : POI) (res : List POI)
    (h : ∀ t ∈ res, ¬ s.is_duplicate t) :
    ∀ nb : List (ℕ × ℝ), tryMergeNearby s res nb = none
  | [] => rfl
  | (i, d) :: rest => by
    rw [tryMergeNearby]
    by_cases hi : i < res.length
    · rw [dif_pos hi, if_neg (h _ (List.get_mem res i hi))]
      exact tryMergeNearby_eq_none s res h rest
    · rw [dif_neg hi]
      exact tryMergeNearby_eq_none s res h rest

/-- Folding a duplicate-free batch through the grid-accelerated loop appends
all of it, whatever the grid state and threshold. -/
lemma foldl_gridStep_no_dup (thr : ℝ) :
    ∀ (l : List POI) (g : SpatialGrid) (acc : List POI),
      (∀ q ∈ l, ∀ t ∈ acc, ¬ q.is_duplicate t) →
      l.Pairwise (fun x y => ¬ y.is_duplicate x) →
      (l.foldl (gridStep thr) (g, acc)).2 = acc ++ l
  | [], _, acc, _, _ => by simp
  | q :: rest, g, acc, h, hpw => by
    rw [List.foldl_cons,
      show gridStep thr (g, acc) q = (g.addPoi q acc.length, acc ++ [q]) from by
        rw [gridStep, tryMergeNearby_eq_none q acc (h q (List.mem_cons_self q rest))],
      foldl_gridStep_no_dup thr rest _ (acc ++ [q]) ?_ (List.Pairwise.of_cons hpw)]
    · simp
    · intro q' hq' t ht
      rcases List.mem_append.1 ht with h1 | h1
      · exact h q' (List.mem_cons_of_mem q hq') t h1
      · rcases List.mem_singleton.1 h1 with rfl
        exact (List.pairwise_cons.1 hpw).1 q' hq'

end MergeLemmas

section ClaimC6

/-- C6: on an input in which no two distinct records are duplicates of each
other, both deduplication paths (and the size dispatcher) return the input
list unchanged. -/
theorem c6_dedup_fixed_on_duplicate_free_input (mgr : GPXManager) (pois : List POI)
    (h : pois.Pairwise (fun x y => ¬ x.is_duplicate y ∧ ¬ y.is_duplicate x)) :
    mgr.dedupOriginal pois = pois ∧ mgr.dedupOptimized pois = pois ∧
    mgr.deduplicatePois pois = pois := by
  have h1 : pois.Pairwise (fun x y => ¬ y.is_duplicate x) :=
    h.imp (fun hx => hx.2)
  have horig : mgr.dedupOriginal pois = pois := by
    cases pois with
    | nil => rfl
    | cons p rest =>
      show rest.foldl (fun res q => insertPoiOriginal q res) [p] = p :: rest
      rw [foldl_insert_no_dup rest [p] ?_ (List.Pairwise.of_cons h1)]
      · simp
      · intro q hq t ht
        rcases List.mem_singleton.1 ht with rfl
        exact (List.pairwise_cons.1 h1).1 q hq
  have hopt : mgr.dedupOptimized pois = pois := by
    show (pois.foldl (gridStep mgr.duplicate_threshold) (_, [])).2 = pois
    rw [foldl_gridStep_no_dup mgr.duplicate_threshold pois _ [] (by simp) h1]
    simp
  refine ⟨horig, hopt, ?_⟩
  rw [GPXManager.deduplicatePois]
  by_cases he : pois.isEmpty
  · rw [if_pos he]
    exact (List.isEmpty_iff.1 he).symm
  · rw [if_neg he]
    by_cases h1' : pois.length = 1
    · rw [if_pos h1']
    · rw [if_neg h1']
      by_cases h5 : pois.length > 500
      · rw [if_pos h5]; exact hopt
      · rw [if_neg h5]; exact horig

/-- C6 witness: two differently-named POIs 200 m apart are left untouched by
both deduplication paths. -/
theorem c6_witness :
    GPXManager.init.dedupOriginal [q6A, q6B] = [q6A, q6B] ∧
    GPXManager.init.dedupOptimized [q6A, q6B] = [q6A, q6B] := by
  have hd : q6A.distance_to q6B = 200 := by
    show haversine 0 0 0 (lonOfMeters 200) = 200
    exact haversine_lonOfMeters 200 (by norm_num) (by nlinarith [pi_big])
  have hd' : q6B.distance_to q6A = 200 := by
    rw [POI.distance_comm]; exact hd
  have hpw : ([q6A, q6B] : List POI).Pairwise
      (fun x y => ¬ x.is_duplicate y ∧ ¬ y.is_duplicate x) := by
    refine List.pairwise_cons.2 ⟨?_, List.pairwise_singleton _ _⟩
    intro y hy
    rcases List.mem_singleton.1 hy with rfl
    constructor
    · simp only [POI.is_duplicate, hd]; norm_num
    · simp only [POI.is_duplicate, hd']; norm_num
  obtain ⟨ha, hb, _⟩ :=
    c6_dedup_fixed_on_duplicate_free_input GPXManager.init [q6A, q6B] hpw
  exact ⟨ha, hb⟩

end ClaimC6

section GridPairLemmas

/-- The nine neighborhood cells are pairwise distinct. -/
lemma neighborCells_nodup (c : ℤ × ℤ) : (getNeighborCells c).Nodup := by
  unfold getNeighborCells
  refine List.Nodup.map ?_ (by decide)
  intro x y hxy
  exact Prod.ext (add_left_cancel (congrArg Prod.fst hxy))
    (add_left_cancel (congrArg Prod.snd hxy))

/-- Flattening a one-hot family over a duplicate-free index list yields the
single payload exactly when the hot index occurs. -/
lemma flatMap_ite (a : ℤ × ℤ) (xs : List (ℕ × ℝ)) :
    ∀ L : List (ℤ × ℤ), L.Nodup →
      (L.flatMap fun c => if c = a then xs else []) = if a ∈ L then xs else []
  | [], _ => by simp
  | c :: rest, hnd => by
    rw [List.flatMap_cons]
    by_cases hc : c = a
    · subst hc
      rw [if_pos rfl, flatMap_ite c xs rest (List.nodup_cons.1 hnd).2,
        if_neg (List.nodup_cons.1 hnd).1, if_pos (List.mem_cons_self c rest)]
      simp
    · rw [if_neg hc, List.nil_append, flatMap_ite a xs rest (List.nodup_cons.1 hnd).2]
      by_cases ha : a ∈ rest
      · rw [if_pos ha, if_pos (List.mem_cons_of_mem c ha)]
      · rw [if_neg ha, if_neg (fun h => by
          rcases List.mem_cons.1 h with h | h
          · exact hc h.symm
          · exact ha h)]

/-- `find_nearby_pois` on a grid holding a single POI at index 0: the index
is reported (with its exact distance) iff the stored POI's cell is in the
probe's 3×3 neighborhood and the distance is within the bound. -/
lemma findNearby_single (cell m : ℝ) (a b : POI) :
    ((SpatialGrid.empty cell).addPoi a 0).findNearbyPois b m =
    if gridCoordsOf cell a.lat a.lon ∈
        getNeighborCells (gridCoordsOf cell b.lat b.lon) ∧ b.distance_to a ≤ m
    then [(0, b.distance_to a)] else [] := by
  have hchk : ((SpatialGrid.empty cell).addPoi a 0).checkIndex b m 0 =
      if b.distance_to a ≤ m then some (0, b.distance_to a) else none := rfl
  have hbody : ∀ c : ℤ × ℤ,
      (((SpatialGrid.empty cell).addPoi a 0).grid c).filterMap
        (((SpatialGrid.empty cell).addPoi a 0).checkIndex b m) =
      if c = gridCoordsOf cell a.lat a.lon
      then (if b.distance_to a ≤ m then [(0, b.distance_to a)] else []) else [] := by
    intro c
    show (if c = gridCoordsOf cell a.lat a.lon then ([] : List ℕ) ++ [0] else []).filterMap _ = _
    by_cases hc : c = gridCoordsOf cell a.lat a.lon
    · rw [if_pos hc, if_pos hc, List.nil_append, List.filterMap_cons, hchk]
      by_cases hd : b.distance_to a ≤ m
      · rw [if_pos hd, if_pos hd]
        rfl
      · rw [if_neg hd, if_neg hd]
        rfl
    · rw [if_neg hc, if_neg hc]
      rfl
  show (List.flatMap _ _).mergeSort _ = _
  rw [show (getNeighborCells
        (((SpatialGrid.empty cell).addPoi a 0).getGridCoords b.lat b.lon)).flatMap
        (fun c => (((SpatialGrid.empty cell).addPoi a 0).grid c).filterMap
          (((SpatialGrid.empty cell).addPoi a 0).checkIndex b m)) =
      (getNeighborCells (gridCoordsOf cell b.lat b.lon)).flatMap
        (fun c => if c = gridCoordsOf cell a.lat a.lon
          then (if b.distance_to a ≤ m then [(0, b.distance_to a)] else []) else []) from by
    simp only [hbody]; rfl]
  rw [flatMap_ite _ _ _ (neighborCells_nodup _)]
  by_cases h1 : gridCoordsOf cell a.lat a.lon ∈
      getNeighborCells (gridCoordsOf cell b.lat b.lon)
  · by_cases h2 : b.distance_to a ≤ m
    · simp [h1, h2]
    · simp [h1, h2]
  · by_cases h2 : b.distance_to a ≤ m
    · simp [h1, h2]
    · simp [h1, h2]

/-- The naive merge of singleton lists merges exactly when the distance is
within the predicate's default 100 m; the configured threshold plays no
role. -/
lemma mergePoisOriginal_pair (mgr : GPXManager) (a b : POI) :
    mgr.mergePoisOriginal [a] [b] =
    if b.distance_to a ≤ 100 then [a.merge_with b] else [a, b] := by
  show insertPoiOriginal b [a] = _
  rw [insertPoiOriginal]
  by_cases h : b.distance_to a ≤ 100
  · rw [if_pos (show b.is_duplicate a from h), if_pos h]
  · rw [if_neg (show ¬b.is_duplicate a from h), if_neg h, insertPoiOriginal]

/-- The naive deduplication of a two-element list merges exactly when the
distance is within the predicate's default 100 m. -/
lemma dedupOriginal_pair (mgr : GPXManager) (a b : POI) :
    mgr.dedupOriginal [a, b] =
    if b.distance_to a ≤ 100 then [a.merge_with b] else [a, b] := by
  show insertPoiOriginal b [a] = _
  rw [insertPoiOriginal]
  by_cases h : b.distance_to a ≤ 100
  · rw [if_pos (show b.is_duplicate a from h), if_pos h]
  · rw [if_neg (show ¬b.is_duplicate a from h), if_neg h, insertPoiOriginal]

/-- The grid-accelerated merge of singleton lists merges exactly when the
candidate search succeeds (cell neighborhood and configured threshold) and
the duplicate predicate's own 100 m bound also holds. -/
lemma mergePoisOptimized_pair (mgr : GPXManager) (a b : POI) :
    mgr.mergePoisOptimized [a] [b] =
    if gridCoordsOf (mgr.duplicate_threshold * 3) a.lat a.lon ∈
        getNeighborCells (gridCoordsOf (mgr.duplicate_threshold * 3) b.lat b.lon)
      ∧ b.distance_to a ≤ mgr.duplicate_threshold ∧ b.distance_to a ≤ 100
    then [a.merge_with b] else [a, b] := by
  have h01 : 0 < ([a] : List POI).length := by norm_num
  show (gridStep mgr.duplicate_threshold
      ((SpatialGrid.empty (mgr.duplicate_threshold * 3)).addPoi a 0, [a]) b).2 = _
  rw [gridStep, findNearby_single,
    show ((SpatialGrid.empty (mgr.duplicate_threshold * 3)).addPoi a 0,
      ([a] : List POI)).2 = [a] from rfl]
  by_cases h1 : gridCoordsOf (mgr.duplicate_threshold * 3) a.lat a.lon ∈
      getNeighborCells (gridCoordsOf (mgr.duplicate_threshold * 3) b.lat b.lon)
  · by_cases h2 : b.distance_to a ≤ mgr.duplicate_threshold
    · rw [if_pos ⟨h1, h2⟩]
      by_cases h3 : b.distance_to a ≤ 100
      · rw [if_pos ⟨h1, h2, h3⟩,
          show tryMergeNearby b [a] [(0, b.distance_to a)] = some [a.merge_with b] from by
            rw [tryMergeNearby, dif_pos h01]
            show (if b.is_duplicate a then some ([a].set 0 (a.merge_with b))
              else tryMergeNearby b [a] []) = _
            rw [if_pos (show b.is_duplicate a from h3)]
            rfl]
      · rw [if_neg (fun hx => h3 hx.2.2),
          show tryMergeNearby b [a] [(0, b.distance_to a)] = none from by
            rw [tryMergeNearby, dif_pos h01]
            show (if b.is_duplicate a then some ([a].set 0 (a.merge_with b))
              else tryMergeNearby b [a] []) = _
            rw [if_neg (show ¬b.is_duplicate a from h3)]
            rfl]
        rfl
    · rw [if_neg (fun hx => h2 hx.2), if_neg (fun hx => h2 hx.2.1)]
      rfl
  · rw [if_neg (fun hx => h1 hx.1), if_neg (fun hx => h1 hx.1)]
    rfl

end GridPairLemmas

section ClaimC5

/-- C5: the claim states every configured threshold `t` governs duplicate
treatment in both paths.  In the code the duplicate predicate is always
called with its default 100 m, the configured threshold only bounding the
grid candidate search; amended: the naive merge and dedupe paths treat a pair
as duplicates exactly when the distance is at most the predicate's fixed
100 m (whatever the configured threshold), and the grid path merges exactly
when additionally the distance is within the configured threshold and the
stored POI's cell lies in the probe's 3×3 neighborhood. -/
theorem c5_threshold_behaviour (mgr : GPXManager) (a b : POI) :
    (mgr.mergePoisOriginal [a] [b] =
      if b.distance_to a ≤ 100 then [a.merge_with b] else [a, b])
  ∧ (mgr.dedupOriginal [a, b] =
      if b.distance_to a ≤ 100 then [a.merge_with b] else [a, b])
  ∧ (mgr.mergePoisOptimized [a] [b] =
      if gridCoordsOf (mgr.duplicate_threshold * 3) a.lat a.lon ∈
          getNeighborCells (gridCoordsOf (mgr.duplicate_threshold * 3) b.lat b.lon)
        ∧ b.distance_to a ≤ mgr.duplicate_threshold ∧ b.distance_to a ≤ 100
      then [a.merge_with b] else [a, b]) :=
  ⟨mergePoisOriginal_pair mgr a b, dedupOriginal_pair mgr a b,
    mergePoisOptimized_pair mgr a b⟩

/-- C5 counterexample: with the manager's threshold configured to 50 m, two
differently-named POIs 60 m (= t + 10) apart are still merged by the naive
path (the predicate's hard-wired 100 m wins), while the grid path keeps them
apart — contradicting the claim that every configured `t` bounds duplicate
treatment in both paths. -/
theorem c5_counterexample_configured_threshold_ignored :
    mgr50.duplicate_threshold = 50 ∧ pA5.name ≠ pB5.name ∧
    pB5.distance_to pA5 = 50 + 10 ∧
    mgr50.mergePoisOriginal [pA5] [pB5] = [pA5.merge_with pB5] ∧
    mgr50.mergePoisOptimized [pA5] [pB5] = [pA5, pB5] := by
  have hd : pA5.distance_to pB5 = 60 := by
    show haversine 0 0 0 (lonOfMeters 60) = 60
    exact haversine_lonOfMeters 60 (by norm_num) (by nlinarith [pi_big])
  have hd' : pB5.distance_to pA5 = 60 := by
    rw [POI.distance_comm]; exact hd
  refine ⟨rfl, by decide, by rw [hd']; norm_num, ?_, ?_⟩
  · rw [mergePoisOriginal_pair, if_pos (by rw [hd']; norm_num)]
  · rw [mergePoisOptimized_pair, if_neg ?_]
    rintro ⟨-, h2, -⟩
    rw [hd'] at h2
    have : mgr50.duplicate_threshold = 50 := rfl
    rw [this] at h2
    norm_num at h2

end ClaimC5

section EnrichmentLemmas

/-- `_remove_zero_elevations` preserves length. -/
lemma removeZero_length (pois : List POI) :
    (removeZeroElevations pois).length = pois.length := by
  simp [removeZeroElevations]

/-- `_remove_zero_elevations` leaves a POI with a known non-zero elevation
untouched. -/
lemma removeZero_getD_known (pois : List POI) (dflt : POI) (i : ℕ) (e : ℝ)
    (hi : i < pois.length) (he : (pois.getD i dflt).ele = some e) (hne : e ≠ 0) :
    (removeZeroElevations pois).getD i dflt = pois.getD i dflt := by
  rw [List.getD_eq_getElem _ _ hi] at he
  rw [List.getD_eq_getElem _ _ (by rw [removeZero_length]; exact hi),
    List.getD_eq_getElem _ _ hi]
  simp only [removeZeroElevations, List.getElem_map, he, if_neg hne]

/-- The elevation of every position after `_remove_zero_elevations`. -/
lemma removeZero_getD_ele (pois : List POI) (dflt : POI) (i : ℕ)
    (hi : i < pois.length) :
    ((removeZeroElevations pois).getD i dflt).ele =
      if (pois.getD i dflt).ele = some 0 then none else (pois.getD i dflt).ele := by
  rw [List.getD_eq_getElem _ _ (by rw [removeZero_length]; exact hi),
    List.getD_eq_getElem _ _ hi]
  simp only [removeZeroElevations, List.getElem_map]
  rcases hele : pois[i].ele with _ | e
  · simp [hele]
  · by_cases he : e = 0
    · subst he
      simp [hele]
    · simp [hele, he]

/-- No POI carries elevation `some 0` after `_remove_zero_elevations`. -/
lemma removeZero_no_zero (pois : List POI) :
    ∀ p ∈ removeZeroElevations pois, p.ele ≠ some 0 := by
  intro p hp
  rcases List.mem_map.1 hp with ⟨q, _, rfl⟩
  rcases hele : q.ele with _ | e
  · simp [hele]
  · by_cases he : e = 0
    · subst he
      simp [hele]
    · simp [hele, he]

/-- The batch reconciliation preserves length. -/
lemma lookupBatchPure_length (batch : List POI) (results : List (Option ℝ)) :
    (lookupBatchPure batch results).length = batch.length := by
  simp [lookupBatchPure]

/-- Position-wise description of the batch reconciliation: a new elevation is
adopted exactly when the service result is present and strictly positive. -/
lemma lookupBatchPure_getD (batch : List POI) (results : List (Option ℝ))
    (dflt : POI) (i : ℕ) (hi : i < batch.length) :
    (lookupBatchPure batch results).getD i dflt =
      match results.getD i none with
      | some e =>
        if 0 < e then { batch.getD i dflt with ele := some e } else batch.getD i dflt
      | none => batch.getD i dflt := by
  rw [List.getD_eq_getElem _ _ (by rw [lookupBatchPure_length]; exact hi),
    List.getD_eq_getElem _ _ hi]
  simp only [lookupBatchPure, List.getElem_map, List.getElem_enum]

/-- Every record produced by the batch reconciliation is either an input
record or an input record with a strictly positive elevation written in. -/
lemma lookupBatchPure_cases (batch : List POI) (results : List (Option ℝ)) :
    ∀ up ∈ lookupBatchPure batch results,
      up ∈ batch ∨ ∃ p ∈ batch, ∃ e : ℝ, 0 < e ∧ up = { p with ele := some e } := by
  intro up hup
  rcases List.mem_map.1 hup with ⟨ip, hip, heq⟩
  have hmem : ip.2 ∈ batch := List.snd_mem_of_mem_enum hip
  rcases hres : results.getD ip.1 none with _ | e
  · simp only [hres] at heq
    exact Or.inl (heq ▸ hmem)
  · simp only [hres] at heq
    by_cases he : 0 < e
    · rw [if_pos he] at heq
      exact Or.inr ⟨ip.2, hmem, e, he, heq.symm⟩
    · rw [if_neg he] at heq
      exact Or.inl (heq ▸ hmem)

/-- If no input record of a batch carries `some 0`, neither does any output
record. -/
lemma lookupBatchPure_no_zero (batch : List POI) (results : List (Option ℝ))
    (hb : ∀ p ∈ batch, p.ele ≠ some 0) :
    ∀ up ∈ lookupBatchPure batch results, up.ele ≠ some 0 := by
  intro up hup
  rcases lookupBatchPure_cases batch results up hup with h | ⟨p, _, e, he, rfl⟩
  · exact hb up h
  · simpa using ne_of_gt he

/-- The batch reconciliation never changes `(lat, lon, name)`. -/
lemma lookupBatchPure_key (batch : List POI) (results : List (Option ℝ)) :
    ∀ up ∈ lookupBatchPure batch results,
      ∃ p ∈ batch, up.lat = p.lat ∧ up.lon = p.lon ∧ up.name = p.name := by
  intro up hup
  rcases lookupBatchPure_cases batch results up hup with h | ⟨p, hp, e, _, rfl⟩
  · exact ⟨up, h, rfl, rfl, rfl⟩
  · exact ⟨p, hp, rfl, rfl, rfl⟩

/-- Chunking only regroups: every chunk element comes from the input list. -/
lemma mem_chunksAux (b : ℕ) :
    ∀ (fuel : ℕ) (l batch : List POI), batch ∈ chunksAux b fuel l →
      ∀ x ∈ batch, x ∈ l
  | 0, l, batch, h => by simp [chunksAux] at h
  | fuel + 1, [], batch, h => by simp [chunksAux] at h
  | fuel + 1, y :: ys, batch, h => by
    rw [show chunksAux b (fuel + 1) (y :: ys) =
      (y :: ys).take b :: chunksAux b fuel ((y :: ys).drop b) from rfl] at h
    rcases List.mem_cons.1 h with rfl | h
    · exact fun x hx => List.take_subset b (y :: ys) hx
    · exact fun x hx =>
        List.drop_subset b (y :: ys) (mem_chunksAux b fuel (List.drop b (y :: ys)) batch h x hx)

/-- Reconciliation output records are the inserted record or input records. -/
lemma mem_replaceFirstMatch (up : POI) :
    ∀ (l : List POI) (x : POI), x ∈ replaceFirstMatch up l → x = up ∨ x ∈ l
  | [], x, h => by simp [replaceFirstMatch] at h
  | q :: rest, x, h => by
    rw [replaceFirstMatch] at h
    by_cases hc : up.lat = q.lat ∧ up.lon = q.lon ∧ up.name = q.name
    · rw [if_pos hc] at h
      rcases List.mem_cons.1 h with rfl | h
      · exact Or.inl rfl
      · exact Or.inr (List.mem_cons_of_mem q h)
    · rw [if_neg hc] at h
      rcases List.mem_cons.1 h with rfl | h
      · exact Or.inr (List.mem_cons_self _ _)
      · rcases mem_replaceFirstMatch up rest x h with h' | h'
        · exact Or.inl h'
        · exact Or.inr (List.mem_cons_of_mem q h')

/-- A position whose `(lat, lon, name)` differs from the inserted record's is
untouched by the reconciliation. -/
lemma replaceFirstMatch_getD_of_ne (up dflt : POI) :
    ∀ (l : List POI) (j : ℕ),
      ¬(up.lat = (l.getD j dflt).lat ∧ up.lon = (l.getD j dflt).lon ∧
        up.name = (l.getD j dflt).name) →
      (replaceFirstMatch up l).getD j dflt = l.getD j dflt
  | [], j, _ => by rw [replaceFirstMatch]
  | q :: rest, 0, h => by
    rw [List.getD_cons_zero] at h
    rw [replaceFirstMatch, if_neg h, List.getD_cons_zero, List.getD_cons_zero]
  | q :: rest, j + 1, h => by
    rw [List.getD_cons_succ] at h
    rw [replaceFirstMatch]
    by_cases hc : up.lat = q.lat ∧ up.lon = q.lon ∧ up.name = q.name
    · rw [if_pos hc, List.getD_cons_succ, List.getD_cons_succ]
    · rw [if_neg hc, List.getD_cons_succ, List.getD_cons_succ,
        replaceFirstMatch_getD_of_ne up dflt rest j h]

/-- Folding reconciliations whose keys all differ from the value at position
`i` leaves position `i` unchanged. -/
lemma foldl_replace_slot (v dflt : POI) (i : ℕ) :
    ∀ (ups acc : List POI), acc.getD i dflt = v →
      (∀ u ∈ ups, ¬(u.lat = v.lat ∧ u.lon = v.lon ∧ u.name = v.name)) →
      (ups.foldl (fun a u => replaceFirstMatch u a) acc).getD i dflt = v
  | [], acc, hacc, _ => hacc
  | u :: rest, acc, hacc, h => by
    rw [List.foldl_cons]
    refine foldl_replace_slot v dflt i rest (replaceFirstMatch u acc) ?_
      (fun x hx => h x (List.mem_cons_of_mem u hx))
    rw [replaceFirstMatch_getD_of_ne u dflt acc i
      (by rw [hacc]; exact h u (List.mem_cons_self u rest))]
    exact hacc

/-- Folding reconciliations preserves any property that holds of the working
list and of every inserted record. -/
lemma foldl_replace_mem (P : POI → Prop) :
    ∀ (ups acc : List POI), (∀ x ∈ acc, P x) → (∀ u ∈ ups, P u) →
      ∀ x ∈ ups.foldl (fun a u => replaceFirstMatch u a) acc, P x
  | [], acc, hacc, _ => hacc
  | u :: rest, acc, hacc, h => by
    rw [List.foldl_cons]
    refine foldl_replace_mem P rest (replaceFirstMatch u acc) ?_
      (fun x hx => h x (List.mem_cons_of_mem u hx))
    intro x hx
    rcases mem_replaceFirstMatch u acc x hx with rfl | hx'
    · exact h x (List.mem_cons_self x rest)
    · exact hacc x hx'

/-- The per-batch outer fold of `lookup_elevations` leaves position `i`
unchanged when every reconciled record's key differs from the value there. -/
lemma foldl_batches_slot (svc : ℕ → List (Option ℝ)) (v dflt : POI) (i : ℕ) :
    ∀ (bs : List (ℕ × List POI)) (acc : List POI), acc.getD i dflt = v →
      (∀ pr ∈ bs, ∀ u ∈ lookupBatchPure pr.2 (svc pr.1),
        ¬(u.lat = v.lat ∧ u.lon = v.lon ∧ u.name = v.name)) →
      (bs.foldl (fun updated ib =>
        (lookupBatchPure ib.2 (svc ib.1)).foldl
          (fun acc' up => replaceFirstMatch up acc') updated) acc).getD i dflt = v
  | [], acc, hacc, _ => hacc
  | pr :: rest, acc, hacc, h => by
    rw [List.foldl_cons]
    refine foldl_batches_slot svc v dflt i rest _ ?_
      (fun x hx => h x (List.mem_cons_of_mem pr hx))
    exact foldl_replace_slot v dflt i _ acc hacc (h pr (List.mem_cons_self pr rest))

/-- The per-batch outer fold preserves any property holding of the working
list and of every reconciled record. -/
lemma foldl_batches_mem (svc : ℕ → List (Option ℝ)) (P : POI → Prop) :
    ∀ (bs : List (ℕ × List POI)) (acc : List POI), (∀ x ∈ acc, P x) →
      (∀ pr ∈ bs, ∀ u ∈ lookupBatchPure pr.2 (svc pr.1), P u) →
      ∀ x ∈ (bs.foldl (fun updated ib =>
        (lookupBatchPure ib.2 (svc ib.1)).foldl
          (fun acc' up => replaceFirstMatch up acc') updated) acc), P x
  | [], acc, hacc, _ => hacc
  | pr :: rest, acc, hacc, h => by
    rw [List.foldl_cons]
    refine foldl_batches_mem svc P rest _ ?_
      (fun x hx => h x (List.mem_cons_of_mem pr hx))
    exact foldl_replace_mem P _ acc hacc (h pr (List.mem_cons_self pr rest))

end EnrichmentLemmas

section ClaimC7

/-- C7: a POI entering enrichment with elevation 0 is reset to unknown by the
pre-clean step; the batch reconciliation adopts a returned elevation exactly
when it is present and strictly positive, keeping the POI unchanged
otherwise; and no record of the final pipeline output carries elevation
`some 0`. -/
theorem c7_zero_elevation_policy :
    (∀ (pois : List POI) (dflt : POI) (i : ℕ), i < pois.length →
      ((removeZeroElevations pois).getD i dflt).ele =
        if (pois.getD i dflt).ele = some 0 then none else (pois.getD i dflt).ele)
  ∧ (∀ (batch : List POI) (results : List (Option ℝ)) (dflt : POI) (i : ℕ),
      i < batch.length →
      (lookupBatchPure batch results).getD i dflt =
        match results.getD i none with
        | some e =>
          if 0 < e then { batch.getD i dflt with ele := some e }
          else batch.getD i dflt
        | none => batch.getD i dflt)
  ∧ (∀ (pois : List POI) (svc : ℕ → List (Option ℝ)),
      ∀ q ∈ lookupElevations pois svc, q.ele ≠ some 0) := by
  refine ⟨fun pois dflt i hi => removeZero_getD_ele pois dflt i hi,
    fun batch results dflt i hi => lookupBatchPure_getD batch results dflt i hi,
    fun pois svc => ?_⟩
  rw [lookupElevations]
  by_cases hne : ((removeZeroElevations pois).filter (fun p => p.ele.isNone)).isEmpty
  · rw [if_pos hne]
    exact removeZero_no_zero pois
  · rw [if_neg hne]
    refine foldl_batches_mem svc (fun q => q.ele ≠ some 0) _ _
      (removeZero_no_zero pois) ?_
    intro pr hpr u hu
    refine lookupBatchPure_no_zero pr.2 (svc pr.1) ?_ u hu
    intro p hp
    have hp' : p ∈ (removeZeroElevations pois).filter (fun p => p.ele.isNone) :=
      mem_chunksAux 50 _ _ pr.2 (List.snd_mem_of_mem_enum hpr) p hp
    exact removeZero_no_zero pois p (List.mem_filter.1 hp').1

/-- C7 witness: a zero elevation is stripped by the pre-clean; a returned 0
leaves the POI unenriched; a returned 120.4 is adopted. -/
theorem c7_witness :
    ((removeZeroElevations [p7zero]).getD 0 p7zero).ele = none ∧
    (lookupBatchPure [p7zero] [some 0]).getD 0 p7zero = p7zero ∧
    (lookupBatchPure [p7zero] [some (120.4 : ℝ)]).getD 0 p7zero =
      { p7zero with ele := some 120.4 } := by
  obtain ⟨h1, h2, -⟩ := c7_zero_elevation_policy
  refine ⟨?_, ?_, ?_⟩
  · rw [h1 [p7zero] p7zero 0 (by norm_num), List.getD_cons_zero,
      if_pos (show p7zero.ele = some 0 from rfl)]
  · rw [h2 [p7zero] [some 0] p7zero 0 (by norm_num)]
    show (if (0 : ℝ) < 0 then _ else _) = p7zero
    rw [if_neg (by norm_num), List.getD_cons_zero]
  · rw [h2 [p7zero] [some (120.4 : ℝ)] p7zero 0 (by norm_num)]
    show (if (0 : ℝ) < 120.4 then _ else _) = _
    rw [if_pos (by norm_num), List.getD_cons_zero]

end ClaimC7

section ClaimC9

/-- C9: the claim states every POI with known elevation passes through
enrichment unchanged.  Reconciliation matches results back by first
`(lat, lon, name)` match, which can overwrite a known-elevation POI sharing
its key with an unknown-elevation one; amended: provided no known-elevation
POI shares its `(lat, lon, name)` key with an unknown-elevation POI (after
zero-stripping), every position holding a known non-zero elevation is
returned unchanged. -/
theorem c9_known_elevation_unchanged (pois : List POI) (svc : ℕ → List (Option ℝ))
    (dflt : POI) (i : ℕ) (e : ℝ)
    (hkeys : ∀ p ∈ removeZeroElevations pois, ∀ q ∈ removeZeroElevations pois,
      p.ele.isSome → q.ele = none →
      ¬(q.lat = p.lat ∧ q.lon = p.lon ∧ q.name = p.name))
    (hi : i < pois.length) (he : (pois.getD i dflt).ele = some e) (hne : e ≠ 0) :
    (lookupElevations pois svc).getD i dflt = pois.getD i dflt := by
  have hclean : (removeZeroElevations pois).getD i dflt = pois.getD i dflt :=
    removeZero_getD_known pois dflt i e hi he hne
  have hv_mem : pois.getD i dflt ∈ removeZeroElevations pois := by
    rw [← hclean, List.getD_eq_getElem _ _ (by rw [removeZero_length]; exact hi)]
    exact List.getElem_mem _
  have hv_some : (pois.getD i dflt).ele.isSome := by rw [he]; rfl
  rw [lookupElevations]
  by_cases hneed :
      ((removeZeroElevations pois).filter (fun p => p.ele.isNone)).isEmpty
  · rw [if_pos hneed]
    exact hclean
  · rw [if_neg hneed]
    refine foldl_batches_slot svc (pois.getD i dflt) dflt i _ _ hclean ?_
    intro pr hpr u hu
    rcases lookupBatchPure_key pr.2 (svc pr.1) u hu with ⟨p, hp, hl, hlo, hn⟩
    have hp' : p ∈ (removeZeroElevations pois).filter (fun x => x.ele.isNone) :=
      mem_chunksAux 50 _ _ pr.2 (List.snd_mem_of_mem_enum hpr) p hp
    have hpmem := (List.mem_filter.1 hp').1
    have hpnone : p.ele = none :=
      Option.isNone_iff_eq_none.1 (List.mem_filter.1 hp').2
    rintro ⟨h1, h2, h3⟩
    exact hkeys (pois.getD i dflt) hv_mem p hpmem hv_some hpnone
      ⟨hl.symm.trans h1, hlo.symm.trans h2, hn.symm.trans h3⟩

/-- C9 witness: with distinct keys, the known-elevation POI at position 0 is
returned unchanged while the other position is looked up. -/
theorem c9_witness :
    (([k9, u9] : List POI).getD 0 u9).ele = some 5 ∧
    (lookupElevations [k9, u9] svc9w).getD 0 u9 = ([k9, u9] : List POI).getD 0 u9 := by
  refine ⟨rfl, ?_⟩
  have hrz : removeZeroElevations [k9, u9] = [k9, u9] := by
    simp only [removeZeroElevations, List.map_cons, List.map_nil,
      show k9.ele = some 5 from rfl, show u9.ele = none from rfl]
    rw [if_neg (by norm_num : (5 : ℝ) ≠ 0)]
  refine c9_known_elevation_unchanged [k9, u9] svc9w u9 0 5 ?_ (by simp) rfl
    (by norm_num)
  rw [hrz]
  intro p hp q hq hps hqn hkey
  rcases List.mem_cons.1 hp with rfl | hp'
  · rcases List.mem_cons.1 hq with rfl | hq'
    · rw [show k9.ele = some 5 from rfl] at hqn
      exact Option.noConfusion hqn
    · rcases List.mem_singleton.1 hq' with rfl
      exact absurd hkey.2.2 (by decide)
  · rcases List.mem_singleton.1 hp' with rfl
    rw [show u9.ele = none from rfl] at hps
    exact Bool.noConfusion hps

/-- C9 counterexample: `a9` has known elevation 500, but shares its
`(lat, lon, name)` key with the unknown-elevation `b9`; after enrichment
returns 300 for `b9`, the reconciliation overwrites position 0 — the
known-elevation record — with the enriched copy of `b9`. -/
theorem c9_counterexample_key_collision_overwrite :
    a9.ele = some 500 ∧
    lookupElevations [a9, b9] svc9 = [{ b9 with ele := some 300 }, b9] ∧
    ({ b9 with ele := some (300 : ℝ) } : POI) ≠ a9 := by
  have h1 : removeZeroElevations [a9, b9] = [a9, b9] := by
    simp only [removeZeroElevations, List.map_cons, List.map_nil,
      show a9.ele = some 500 from rfl, show b9.ele = none from rfl]
    rw [if_neg (by norm_num : (500 : ℝ) ≠ 0)]
  have h2 : ([a9, b9] : List POI).filter (fun p => p.ele.isNone) = [b9] := by
    simp only [List.filter_cons, List.filter_nil,
      show a9.ele.isNone = false from rfl, show b9.ele.isNone = true from rfl]
    rfl
  have h4 : lookupBatchPure [b9] [some (300 : ℝ)] = [{ b9 with ele := some 300 }] := by
    simp only [lookupBatchPure, List.enum, List.enumFrom, List.map_cons, List.map_nil,
      List.getD_cons_zero]
    rw [if_pos (by norm_num : (0 : ℝ) < 300)]
  have h5 : replaceFirstMatch { b9 with ele := some (300 : ℝ) } [a9, b9] =
      [{ b9 with ele := some 300 }, b9] := by
    rw [replaceFirstMatch, if_pos ⟨rfl, rfl, rfl⟩]
  refine ⟨rfl, ?_, ?_⟩
  · rw [lookupElevations, h1, h2, if_neg (by decide)]
    show (lookupBatchPure [b9] (svc9 0)).foldl
      (fun acc' up => replaceFirstMatch up acc') [a9, b9] = _
    rw [show svc9 0 = [some (300 : ℝ)] from rfl, h4, List.foldl_cons, List.foldl_nil, h5]
  · intro h
    have := congrArg POI.ele h
    rw [show ({ b9 with ele := some (300 : ℝ) } : POI).ele = some 300 from rfl,
      show a9.ele = some 500 from rfl] at this
    have := Option.some.inj this
    norm_num at this

end ClaimC9

section ClaimC8

/-- Sorting a two-element constant list returns it unchanged. -/
lemma mergeSort_pair_eq (le : ℕ × ℝ → ℕ × ℝ → Bool) (x : ℕ × ℝ) :
    List.mergeSort [x, x] le = [x, x] := by
  have hp := List.mergeSort_perm [x, x] le
  have hlen := hp.length_eq
  have hmem : ∀ y ∈ List.mergeSort [x, x] le, y = x := by
    intro y hy
    have := hp.mem_iff.1 hy
    simpa using this
  rcases hm : List.mergeSort [x, x] le with _ | ⟨a, _ | ⟨b, _ | ⟨c, t⟩⟩⟩ <;>
    rw [hm] at hlen <;> simp at hlen
  rw [hm] at hmem
  rw [hmem a (List.mem_cons_self _ _),
    hmem b (List.mem_cons_of_mem _ (List.mem_cons_self _ _))]

/-- C8: the claim states `add_poi` is idempotent.  It is not: inserting the
same `(poi, index)` twice appends the index to the cell bucket a second time
(only the positional `pois` array part is idempotent); amended: a double
insertion leaves the bucket of the POI's cell with one extra copy of the
index compared to a single insertion, while the `pois` array is unchanged. -/
theorem c8_add_poi_not_idempotent (g : SpatialGrid) (p : POI) (i : ℕ) :
    ((g.addPoi p i).addPoi p i).grid (g.getGridCoords p.lat p.lon) =
      (g.addPoi p i).grid (g.getGridCoords p.lat p.lon) ++ [i] ∧
    ((g.addPoi p i).addPoi p i).pois = (g.addPoi p i).pois := by
  constructor
  · show (if g.getGridCoords p.lat p.lon = (g.addPoi p i).getGridCoords p.lat p.lon
      then (g.addPoi p i).grid (g.getGridCoords p.lat p.lon) ++ [i]
      else (g.addPoi p i).grid (g.getGridCoords p.lat p.lon)) = _
    rw [if_pos (show g.getGridCoords p.lat p.lon =
      (g.addPoi p i).getGridCoords p.lat p.lon from rfl)]
  · have hlen : i + 1 - (g.addPoi p i).pois.length = 0 := by
      show i + 1 -
        ((g.pois ++ List.replicate (i + 1 - g.pois.length) none).set i (some p)).length = 0
      rw [List.length_set, List.length_append, List.length_replicate]
      omega
    show ((g.addPoi p i).pois ++
      List.replicate (i + 1 - (g.addPoi p i).pois.length) none).set i (some p) = _
    rw [hlen, List.replicate_zero, List.append_nil]
    show ((g.pois ++ List.replicate (i + 1 - g.pois.length) none).set i
      (some p)).set i (some p) = _
    rw [List.set_set]
    rfl

/-- C8 counterexample: after inserting `p8` twice at index 0, the bucket of
its cell holds the index twice and `find_nearby_pois` reports index 0 twice,
contradicting the claim that a duplicate insertion leaves the grid state
unchanged and the index reported at most once. -/
theorem c8_counterexample_double_report :
    ((SpatialGrid.empty 300).addPoi p8 0).grid (grid8.getGridCoords p8.lat p8.lon) = [0] ∧
    grid8.grid (grid8.getGridCoords p8.lat p8.lon) = [0, 0] ∧
    grid8.findNearbyPois p8 100 = [(0, 0), (0, 0)] := by
  have hd : p8.distance_to p8 = 0 := haversine_self 0 0
  have hgridfun : ∀ c', grid8.grid c' =
      if c' = grid8.getGridCoords p8.lat p8.lon then [0, 0] else [] := by
    intro c'
    show (if c' = grid8.getGridCoords p8.lat p8.lon
        then (if c' = grid8.getGridCoords p8.lat p8.lon then ([] : List ℕ) ++ [0] else []) ++ [0]
        else (if c' = grid8.getGridCoords p8.lat p8.lon then ([] : List ℕ) ++ [0] else [])) = _
    by_cases h : c' = grid8.getGridCoords p8.lat p8.lon
    · rw [if_pos h, if_pos h, if_pos h]
      rfl
    · rw [if_neg h, if_neg h, if_neg h]
  have hchk : grid8.checkIndex p8 100 0 = some (0, 0) := by
    show (if p8.distance_to p8 ≤ 100 then some (0, p8.distance_to p8) else none) = _
    rw [hd, if_pos (by norm_num : (0 : ℝ) ≤ 100)]
  have hcell : ∀ c, (grid8.grid c).filterMap (grid8.checkIndex p8 100) =
      if c = grid8.getGridCoords p8.lat p8.lon then [(0, 0), (0, 0)] else [] := by
    intro c
    rw [hgridfun c]
    by_cases h : c = grid8.getGridCoords p8.lat p8.lon
    · rw [if_pos h, if_pos h, List.filterMap_cons, hchk, List.filterMap_cons, hchk]
      rfl
    · rw [if_neg h, if_neg h]
      rfl
  refine ⟨?_, ?_, ?_⟩
  · show (if grid8.getGridCoords p8.lat p8.lon =
      (SpatialGrid.empty 300).getGridCoords p8.lat p8.lon
      then ([] : List ℕ) ++ [0] else ([] : List ℕ)) = [0]
    rw [if_pos (show grid8.getGridCoords p8.lat p8.lon =
      (SpatialGrid.empty 300).getGridCoords p8.lat p8.lon from rfl)]
    rfl
  · rw [hgridfun, if_pos rfl]
  · show ((getNeighborCells (grid8.getGridCoords p8.lat p8.lon)).flatMap
      (fun c => (grid8.grid c).filterMap (grid8.checkIndex p8 100))).mergeSort
        (fun x y => decide (x.2 ≤ y.2)) = _
    rw [show (getNeighborCells (grid8.getGridCoords p8.lat p8.lon)).flatMap
        (fun c => (grid8.grid c).filterMap (grid8.checkIndex p8 100)) =
      (getNeighborCells (grid8.getGridCoords p8.lat p8.lon)).flatMap
        (fun c => if c = grid8.getGridCoords p8.lat p8.lon
          then [(0, 0), (0, 0)] else []) from by simp only [hcell]]
    rw [flatMap_ite _ _ _ (neighborCells_nodup _),
      if_pos (by
        refine List.mem_map.2 ⟨(0, 0), by decide, ?_⟩
        exact Prod.ext (add_zero _) (add_zero _)),
      mergeSort_pair_eq]

end ClaimC8

section ClaimC2

/-- When a candidate index passes the per-index check of `find_nearby_pois`,
it denotes a stored POI whose exact distance is within the bound. -/
lemma checkIndex_eq_some (g : SpatialGrid) (p : POI) (maxd : ℝ) (j i : ℕ) (δ : ℝ) :
    g.checkIndex p maxd j = some (i, δ) ↔
    j = i ∧ ∃ q, g.pois.getD j none = some q ∧ δ = p.distance_to q ∧ δ ≤ maxd := by
  rcases hq : g.pois.getD j none with _ | q
  · simp only [SpatialGrid.checkIndex]
    rw [hq]
    simp
  · simp only [SpatialGrid.checkIndex, hq]
    by_cases hd : p.distance_to q ≤ maxd
    · rw [if_pos hd]
      constructor
      · intro h
        obtain ⟨hj, hδ⟩ := Prod.mk.inj (Option.some.inj h)
        exact ⟨hj, q, rfl, hδ.symm, hδ ▸ hd⟩
      · rintro ⟨rfl, q', hq', rfl, -⟩
        rw [Option.some.inj hq']
    · rw [if_neg hd]
      constructor
      · intro h
        exact Option.noConfusion h
      · rintro ⟨rfl, q', hq', rfl, hle⟩
        rw [← Option.some.inj hq'] at hle
        exact absurd hle hd

/-- C2: the claim states `queryNearby` returns exactly the indices within the
bound by true Haversine distance (as a linear scan would), sorted by
distance.  The scan only visits the 3×3 cell neighborhood of the probe, so
qualifying indices bucketed further away are missed; amended: the result is
sorted ascending by distance, and an `(index, distance)` pair is returned iff
the index lies in one of the nine visited buckets AND denotes a stored POI
within the bound at that exact Haversine distance. -/
theorem c2_find_nearby_sorted_and_complete (g : SpatialGrid) (p : POI) (d : ℝ) :
    (g.findNearbyPois p d).Pairwise (fun x y => x.2 ≤ y.2) ∧
    ∀ i δ, ((i, δ) ∈ g.findNearbyPois p d ↔
      (∃ c ∈ getNeighborCells (g.getGridCoords p.lat p.lon), i ∈ g.grid c) ∧
      ∃ q, g.pois.getD i none = some q ∧ δ = p.distance_to q ∧ δ ≤ d) := by
  constructor
  · have hsort := @List.sorted_mergeSort (ℕ × ℝ) (fun x y => decide (x.2 ≤ y.2))
      (fun a b c hab hbc =>
        decide_eq_true (le_trans (of_decide_eq_true hab) (of_decide_eq_true hbc)))
      (fun a b => by
        rw [Bool.or_eq_true]
        rcases le_total a.2 b.2 with h | h
        · exact Or.inl (decide_eq_true h)
        · exact Or.inr (decide_eq_true h))
      ((getNeighborCells (g.getGridCoords p.lat p.lon)).flatMap
        (fun c => (g.grid c).filterMap (g.checkIndex p d)))
    exact hsort.imp (fun h => of_decide_eq_true h)
  · intro i δ
    show (i, δ) ∈ List.mergeSort _ _ ↔ _
    rw [List.mem_mergeSort, List.mem_flatMap]
    constructor
    · rintro ⟨c, hc, hmem'⟩
      rcases List.mem_filterMap.1 hmem' with ⟨j, hj, hchk⟩
      rcases (checkIndex_eq_some g p d j i δ).1 hchk with ⟨rfl, hq⟩
      exact ⟨⟨c, hc, hj⟩, hq⟩
    · rintro ⟨⟨c, hc, hi⟩, hq⟩
      exact ⟨c, hc, List.mem_filterMap.2
        ⟨i, hi, (checkIndex_eq_some g p d i i δ).2 ⟨rfl, hq⟩⟩⟩

/-- C2 counterexample: `storedB` is stored at index 0, lies within the
30000 m bound of the probe by exact Haversine distance (so a linear scan
keeps it), yet its cell (0, 2) is outside the probe's 3×3 neighborhood of
cell (0, 0), so `find_nearby_pois` returns the empty list. -/
theorem c2_counterexample_missed_by_grid :
    gridMiss.pois.getD 0 none = some storedB ∧
    gridMiss.checkIndex probeA 30000 0 = some (0, probeA.distance_to storedB) ∧
    gridMiss.findNearbyPois probeA 30000 = [] := by
  have hd : probeA.distance_to storedB = 6371000 * (((0.25 : ℝ) - 0) * π / 180) := by
    show haversine 0 0 0 0.25 = _
    exact haversine_equator 0 0.25 (by norm_num) (by norm_num)
  have hle : probeA.distance_to storedB ≤ 30000 := by
    rw [hd]
    nlinarith [Real.pi_lt_d2, Real.pi_pos]
  have hcprobe : gridCoordsOf 11132 probeA.lat probeA.lon = ((0 : ℤ), (0 : ℤ)) := by
    show (pyInt ((0 : ℝ) / (11132 / 111320)), pyInt ((0 : ℝ) / (11132 / 111320))) =
      ((0 : ℤ), (0 : ℤ))
    norm_num [pyInt]
  have hcstored : gridCoordsOf 11132 storedB.lat storedB.lon = ((0 : ℤ), (2 : ℤ)) := by
    show (pyInt ((0 : ℝ) / (11132 / 111320)), pyInt ((0.25 : ℝ) / (11132 / 111320))) =
      ((0 : ℤ), (2 : ℤ))
    norm_num [pyInt]
  have hchk : gridMiss.checkIndex probeA 30000 0 =
      some (0, probeA.distance_to storedB) := by
    show (if probeA.distance_to storedB ≤ 30000
      then some (0, probeA.distance_to storedB) else none) = _
    rw [if_pos hle]
  refine ⟨rfl, hchk, ?_⟩
  have hgridfun : ∀ c', gridMiss.grid c' = if c' = ((0 : ℤ), (2 : ℤ)) then [0] else [] := by
    intro c'
    show (if c' = gridCoordsOf 11132 storedB.lat storedB.lon
      then ([] : List ℕ) ++ [0] else ([] : List ℕ)) = _
    rw [hcstored]
    by_cases h : c' = ((0 : ℤ), (2 : ℤ))
    · rw [if_pos h, if_pos h]
      rfl
    · rw [if_neg h, if_neg h]
  show ((getNeighborCells (gridMiss.getGridCoords probeA.lat probeA.lon)).flatMap
    (fun c => (gridMiss.grid c).filterMap (gridMiss.checkIndex probeA 30000))).mergeSort
      (fun x y => decide (x.2 ≤ y.2)) = _
  rw [show gridMiss.getGridCoords probeA.lat probeA.lon = ((0 : ℤ), (0 : ℤ)) from hcprobe,
    show (getNeighborCells ((0 : ℤ), (0 : ℤ))).flatMap
        (fun c => (gridMiss.grid c).filterMap (gridMiss.checkIndex probeA 30000)) =
      (getNeighborCells ((0 : ℤ), (0 : ℤ))).flatMap
        (fun c => if c = ((0 : ℤ), (2 : ℤ))
          then ([0] : List ℕ).filterMap (gridMiss.checkIndex probeA 30000) else []) from by
      refine congrArg _ (funext fun c => ?_)
      rw [hgridfun c]
      by_cases h : c = ((0 : ℤ), (2 : ℤ))
      · rw [if_pos h, if_pos h]
      · rw [if_neg h, if_neg h]
        rfl,
    flatMap_ite _ _ _ (neighborCells_nodup _), if_neg (by decide), List.mergeSort_nil]

end ClaimC2
